import Mathlib

/-!
Verification of the house-expense-manager aggregation logic.

The development shallowly embeds the Dashboard component (expense list,
monthly totals, per-category sums, month selector), the add-expense dialog
form, and the record-store schema triggers.  Currency amounts are modelled
as rationals (the store column is `DECIMAL(10,2)`), dates as the ISO
`YYYY-MM-DD` strings the code manipulates, and the database's date filtering
as lexicographic comparison of those strings.
-/

/-- An expense record as fetched from the store
(the `Expense` interface of the Dashboard component). -/
structure Expense where
  id : String
  amount : ℚ
  category : String
  description : String
  date : String
  created_at : String
deriving DecidableEq

/-- `totalExpenses = expenses.reduce((sum, expense) => sum + expense.amount, 0)`. -/
def totalExpenses (expenses : List Expense) : ℚ :=
  expenses.foldl (fun sum expense => sum + expense.amount) 0

/-- The arithmetic sum of all records' amounts (the specification's reading). -/
def sumAmounts (expenses : List Expense) : ℚ :=
  (expenses.map Expense.amount).sum

theorem totalExpenses_eq_sumAmounts (l : List Expense) :
    totalExpenses l = sumAmounts l := by
  simp only [totalExpenses, sumAmounts, List.sum_eq_foldl, List.foldl_map]

/-- C1: the aggregated Dashboard total equals the arithmetic sum of all
records' amounts and is invariant under any permutation of the input list. -/
theorem totalExpenses_correct (es es' : List Expense) (h : es.Perm es') :
    totalExpenses es = sumAmounts es ∧ totalExpenses es = totalExpenses es' := by
  refine ⟨totalExpenses_eq_sumAmounts es, ?_⟩
  rw [totalExpenses_eq_sumAmounts es, totalExpenses_eq_sumAmounts es']
  exact List.Perm.sum_eq (h.map Expense.amount)

/-- A sample groceries record. -/
def exA : Expense :=
  ⟨"id-a", 12, "groceries", "Weekly shop", "2024-01-05", "2024-01-05T10:00:00Z"⟩

/-- A sample water record. -/
def exB : Expense :=
  ⟨"id-b", 30, "water", "Water bill", "2024-01-20", "2024-01-20T10:00:00Z"⟩

/-- Witness for C1 at the concrete two-record list and its swap. -/
theorem totalExpenses_correct_witness :
    totalExpenses [exA, exB] = sumAmounts [exA, exB]
    ∧ totalExpenses [exA, exB] = totalExpenses [exB, exA] :=
  totalExpenses_correct [exA, exB] [exB, exA] (List.Perm.swap exB exA [])

/-- Lookup in a JavaScript object modelled as an association list
(first binding of the key wins; keys are unique by construction here). -/
def objLookup {α : Type} (m : List (String × α)) (k : String) : Option α :=
  match m with
  | [] => none
  | (k', v) :: rest => if k' = k then some v else objLookup rest k

/-- `acc[k] = v` on a JavaScript object: replace the first binding of `k`
in place, or append a new binding when `k` is absent. -/
def objSet {α : Type} (m : List (String × α)) (k : String) (v : α) :
    List (String × α) :=
  match m with
  | [] => [(k, v)]
  | (k', w) :: rest => if k' = k then (k, v) :: rest else (k', w) :: objSet rest k v

/-- One step of the category reduction:
`acc[expense.category] = (acc[expense.category] || 0) + expense.amount`. -/
def catStep (acc : List (String × ℚ)) (expense : Expense) : List (String × ℚ) :=
  objSet acc expense.category ((objLookup acc expense.category).getD 0 + expense.amount)

/-- `expensesByCategory = expenses.reduce((acc, expense) => {...}, {})`. -/
def expensesByCategory (expenses : List Expense) : List (String × ℚ) :=
  expenses.foldl catStep []

/-- The sum of the amounts of exactly the records with category `c`. -/
def catSum (c : String) (es : List Expense) : ℚ :=
  ((es.filter (fun e => e.category == c)).map Expense.amount).sum

theorem objLookup_objSet_self {α : Type} (m : List (String × α)) (k : String) (v : α) :
    objLookup (objSet m k v) k = some v := by
  induction m with
  | nil => simp [objLookup, objSet]
  | cons p rest ih =>
    obtain ⟨k', w⟩ := p
    by_cases h : k' = k
    · simp [objLookup, objSet, h]
    · simp [objLookup, objSet, h, ih]

theorem objLookup_objSet_ne {α : Type} (m : List (String × α)) {k k' : String} (v : α)
    (h : k' ≠ k) : objLookup (objSet m k v) k' = objLookup m k' := by
  have h' : ¬ (k = k') := fun e => h e.symm
  induction m with
  | nil => simp [objLookup, objSet, h']
  | cons p rest ih =>
    obtain ⟨k'', w⟩ := p
    by_cases hk : k'' = k
    · subst hk
      simp [objLookup, objSet, h']
    · simp [objLookup, objSet, hk, ih]

theorem catSum_cons_self (c : String) (e : Expense) (es : List Expense)
    (h : e.category = c) : catSum c (e :: es) = e.amount + catSum c es := by
  simp [catSum, List.filter_cons, h]

theorem catSum_cons_ne (c : String) (e : Expense) (es : List Expense)
    (h : ¬ e.category = c) : catSum c (e :: es) = catSum c es := by
  simp [catSum, List.filter_cons, h]

theorem objLookup_foldl_catStep (es : List Expense) : ∀ (acc : List (String × ℚ))
    (c : String),
    objLookup (es.foldl catStep acc) c =
      if (objLookup acc c).isSome ∨ es.any (fun e => e.category == c)
      then some ((objLookup acc c).getD 0 + catSum c es) else none := by
  induction es with
  | nil =>
    intro acc c
    cases h : objLookup acc c <;> simp [h, catSum]
  | cons e rest ih =>
    intro acc c
    rw [List.foldl_cons, ih (catStep acc e) c]
    by_cases hc : e.category = c
    · have hself : objLookup (catStep acc e) c =
          some ((objLookup acc c).getD 0 + e.amount) := by
        rw [catStep, hc, objLookup_objSet_self]
      rw [hself, catSum_cons_self c e rest hc]
      simp [hc, add_assoc]
    · have hne : objLookup (catStep acc e) c = objLookup acc c := by
        rw [catStep]
        exact objLookup_objSet_ne acc _ (fun h => hc h.symm)
      rw [hne, catSum_cons_ne c e rest hc]
      simp [hc]

/-- C2: the per-category mapping has a key exactly for the categories that
occur in the record list, and maps each such category to the sum of exactly
that category's amounts; absent categories are not zero-filled. -/
theorem expensesByCategory_correct (es : List Expense) (c : String) :
    objLookup (expensesByCategory es) c =
      if ∃ e ∈ es, e.category = c then some (catSum c es) else none := by
  rw [expensesByCategory, objLookup_foldl_catStep es [] c]
  simp only [objLookup, Option.isSome_none, Bool.false_eq_true, false_or,
    Option.getD_none, zero_add]
  by_cases h : ∃ e ∈ es, e.category = c
  · have : es.any (fun e => e.category == c) = true := by
      rw [List.any_eq_true]
      obtain ⟨e, he, hc⟩ := h
      exact ⟨e, he, by simp [hc]⟩
    simp [h, this]
  · have : es.any (fun e => e.category == c) = false := by
      rw [List.any_eq_false]
      intro e he
      simp only [beq_iff_eq]
      exact fun hc => h ⟨e, he, hc⟩
    simp [h, this]

/-- Lexicographic strict comparison of character lists: the date-string
comparison semantics of the query's `gte`/`lt` filters. -/
def strLtB : List Char → List Char → Bool
  | [], [] => false
  | [], _ :: _ => true
  | _ :: _, [] => false
  | a :: as, b :: bs => decide (a < b) || (decide (a = b) && strLtB as bs)

theorem strLtB_irrefl : ∀ l : List Char, strLtB l l = false
  | [] => rfl
  | a :: as => by simp [strLtB, strLtB_irrefl as]

theorem strLtB_trans :
    ∀ {a b c : List Char}, strLtB a b = true → strLtB b c = true → strLtB a c = true
  | [], b, c, h1, h2 => by
    cases b with
    | nil => simp [strLtB] at h1
    | cons b0 bs =>
      cases c with
      | nil => simp [strLtB] at h2
      | cons c0 cs => simp [strLtB]
  | a0 :: as, b, c, h1, h2 => by
    cases b with
    | nil => simp [strLtB] at h1
    | cons b0 bs =>
      cases c with
      | nil => simp [strLtB] at h2
      | cons c0 cs =>
        simp only [strLtB, Bool.or_eq_true, Bool.and_eq_true, decide_eq_true_eq] at h1 h2 ⊢
        rcases h1 with h1 | ⟨he1, h1'⟩
        · rcases h2 with h2 | ⟨he2, h2'⟩
          · exact Or.inl (lt_trans h1 h2)
          · exact Or.inl (by rw [← he2]; exact h1)
        · rcases h2 with h2 | ⟨he2, h2'⟩
          · exact Or.inl (by rw [he1]; exact h2)
          · exact Or.inr ⟨he1.trans he2, strLtB_trans h1' h2'⟩

theorem strLtB_trichot : ∀ a b : List Char, strLtB a b = true ∨ a = b ∨ strLtB b a = true
  | [], [] => Or.inr (Or.inl rfl)
  | [], _ :: _ => Or.inl (by simp [strLtB])
  | _ :: _, [] => Or.inr (Or.inr (by simp [strLtB]))
  | a0 :: as, b0 :: bs => by
    rcases lt_trichotomy a0 b0 with h | h | h
    · exact Or.inl (by simp [strLtB, h])
    · rcases strLtB_trichot as bs with h' | h' | h'
      · exact Or.inl (by simp [strLtB, h, h'])
      · exact Or.inr (Or.inl (by rw [h, h']))
      · exact Or.inr (Or.inr (by simp [strLtB, ← h, h']))
    · exact Or.inr (Or.inr (by simp [strLtB, h]))

theorem strLtB_asymm {a b : List Char} (h : strLtB a b = true) : strLtB b a = false := by
  cases hres : strLtB b a with
  | false => rfl
  | true =>
    have hself := strLtB_trans h hres
    rw [strLtB_irrefl] at hself
    exact absurd hself Bool.false_ne_true

/-- Date-descending order on expenses: `x` may precede `y` when `x`'s date
is not lexicographically below `y`'s (`order("date", ascending: false)`). -/
def dateGe (x y : Expense) : Prop :=
  strLtB x.date.data y.date.data = false

instance : DecidableRel dateGe :=
  fun x y => inferInstanceAs (Decidable (strLtB x.date.data y.date.data = false))

instance : IsTotal Expense dateGe where
  total x y := by
    cases h : strLtB x.date.data y.date.data
    · exact Or.inl h
    · exact Or.inr (strLtB_asymm h)

instance : IsTrans Expense dateGe where
  trans x y z hxy hyz := by
    have hxy' : strLtB x.date.data y.date.data = false := hxy
    have hyz' : strLtB y.date.data z.date.data = false := hyz
    show strLtB x.date.data z.date.data = false
    cases h : strLtB x.date.data z.date.data with
    | false => rfl
    | true =>
      exfalso
      rcases strLtB_trichot x.date.data y.date.data with h1 | h1 | h1
      · exact absurd (hxy' ▸ h1) Bool.false_ne_true
      · rw [← h1] at hyz'
        exact absurd (hyz' ▸ h) Bool.false_ne_true
      · exact absurd (hyz' ▸ strLtB_trans h1 h) Bool.false_ne_true

/-- The month filter of the expense query:
`.gte("date", month + "-01")` and `.lt("date", month + "-32")`. -/
def inMonth (month d : String) : Bool :=
  !(strLtB d.data (month ++ "-01").data) && strLtB d.data (month ++ "-32").data

/-- The expense query (`fetchExpenses` minus its state effects): the
records of the visible store whose date lies in the month window, ordered
by date descending. -/
def fetchExpenses (month : String) (db : List Expense) : List Expense :=
  List.insertionSort dateGe (db.filter (fun e => inMonth month e.date))

/-- A sample record dated on the last day of January 2024. -/
def exJan31 : Expense :=
  ⟨"id-jan", 20, "gas", "Gas bill", "2024-01-31", "2024-01-31T00:00:00Z"⟩

/-- A sample record dated on the first day of February 2024. -/
def exFeb01 : Expense :=
  ⟨"id-feb", 25, "electricity", "Power bill", "2024-02-01", "2024-02-01T00:00:00Z"⟩

/-- C3: the query selects exactly the records whose date lies in the
half-open range `[month-01, month-32)`, returns them ordered by date
descending, and for month `2024-01` a record dated `2024-01-31` is kept
while one dated `2024-02-01` is dropped. -/
theorem fetchExpenses_correct (month : String) (db : List Expense) :
    (∀ e, e ∈ fetchExpenses month db ↔
        e ∈ db ∧ strLtB e.date.data (month ++ "-01").data = false
          ∧ strLtB e.date.data (month ++ "-32").data = true)
    ∧ (fetchExpenses month db).Sorted dateGe
    ∧ fetchExpenses "2024-01" [exJan31, exFeb01] = [exJan31] := by
  refine ⟨?_, List.sorted_insertionSort dateGe _, rfl⟩
  intro e
  rw [fetchExpenses, (List.perm_insertionSort dateGe _).mem_iff, List.mem_filter]
  simp [inMonth, Bool.and_eq_true, Bool.not_eq_true']

/-- The sum of all values stored in the per-category mapping. -/
def valuesSum (m : List (String × ℚ)) : ℚ :=
  (m.map Prod.snd).sum

theorem valuesSum_objSet (m : List (String × ℚ)) (k : String) (a : ℚ) :
    valuesSum (objSet m k ((objLookup m k).getD 0 + a)) = valuesSum m + a := by
  induction m with
  | nil => simp [valuesSum, objSet, objLookup]
  | cons p rest ih =>
    obtain ⟨k', w⟩ := p
    by_cases h : k' = k
    · subst h
      simp only [objLookup, objSet, if_pos, Option.getD_some]
      simp only [valuesSum, List.map_cons, List.sum_cons]
      ring
    · simp only [objLookup, objSet, if_neg h]
      simp only [valuesSum, List.map_cons, List.sum_cons] at ih ⊢
      rw [ih]
      ring

theorem valuesSum_foldl_catStep (es : List Expense) : ∀ acc : List (String × ℚ),
    valuesSum (es.foldl catStep acc) = valuesSum acc + sumAmounts es := by
  induction es with
  | nil => intro acc; simp [sumAmounts]
  | cons e rest ih =>
    intro acc
    rw [List.foldl_cons, ih (catStep acc e), catStep, valuesSum_objSet]
    simp [sumAmounts, add_assoc]

/-- C10: the values of the per-category mapping sum to the aggregated total:
the per-category aggregation partitions the total, for arbitrary category
strings. -/
theorem expensesByCategory_partition (es : List Expense) :
    valuesSum (expensesByCategory es) = totalExpenses es := by
  rw [expensesByCategory, valuesSum_foldl_catStep es [], totalExpenses_eq_sumAmounts]
  simp [valuesSum]

/-- The Dashboard state touched by a fetch. -/
structure DashState where
  expenses : List Expense
  loading : Bool
  errorLog : List String
deriving DecidableEq

/-- The Dashboard state on mount: empty list, loading, nothing logged. -/
def initialDashState : DashState := ⟨[], true, []⟩

/-- The state effects of one `fetchExpenses` call given the store's
response: `setLoading(true)`; on error `console.error(...)` (the expense
list is not written), otherwise `setExpenses(data)`; then
`setLoading(false)`. -/
def applyFetchResult (s : DashState) (result : Except String (List Expense)) : DashState :=
  let s1 : DashState := { s with loading := true }
  match result with
  | Except.error msg => { s1 with errorLog := s1.errorLog ++ [msg], loading := false }
  | Except.ok data => { s1 with expenses := data, loading := false }

/-- C4 counterexample: a failing fetch over a non-empty displayed list
leaves the old records on screen — the list does not become empty. -/
theorem fetchFailure_keeps_old_list :
    (applyFetchResult ⟨[exA], false, []⟩ (Except.error "store error")).expenses = [exA]
    ∧ [exA] ≠ ([] : List Expense) :=
  ⟨rfl, by simp⟩

/-- C4 amended: on a store error the Dashboard logs the error and leaves
the displayed expense list unchanged — empty only when it was already
empty, as on initial mount — rather than crashing or propagating. -/
theorem fetchFailure_amended (s : DashState) (msg : String) :
    (applyFetchResult s (Except.error msg)).expenses = s.expenses
    ∧ (applyFetchResult s (Except.error msg)).errorLog = s.errorLog ++ [msg]
    ∧ (applyFetchResult s (Except.error msg)).loading = false
    ∧ (applyFetchResult initialDashState (Except.error msg)).expenses = [] :=
  ⟨rfl, rfl, rfl, rfl⟩

/-- `true` when `y` is a Gregorian leap year. -/
def isLeap (y : ℤ) : Bool :=
  y % 4 == 0 && (y % 100 != 0 || y % 400 == 0)

/-- Length of the `m`-th month (0-based index, as `Date.getMonth()`). -/
def daysInMonth (y : ℤ) (m : ℕ) : ℕ :=
  match m with
  | 1 => if isLeap y then 29 else 28
  | 3 => 30
  | 5 => 30
  | 8 => 30
  | 10 => 30
  | _ => 31

/-- A calendar date as JavaScript's `Date` exposes it: year,
0-based month index, 1-based day. -/
structure JSDate where
  year : ℤ
  month : ℕ
  day : ℕ
deriving DecidableEq

/-- Normalise a year and an out-of-range month index. -/
def normYM (y m : ℤ) : ℤ × ℕ :=
  (y + m.ediv 12, (m.emod 12).toNat)

/-- Models the JavaScript `Date.prototype.setMonth` builtin used by the
month selector: the day-of-month is kept, and a day past the target
month's length rolls into the following month (for day values `1..31` a
single roll suffices, since every month has at least 28 days). -/
def setMonth (d : JSDate) (m : ℤ) : JSDate :=
  let ym := normYM d.year m
  if d.day ≤ daysInMonth ym.1 ym.2 then ⟨ym.1, ym.2, d.day⟩
  else
    let ym2 := normYM ym.1 ((ym.2 : ℤ) + 1)
    ⟨ym2.1, ym2.2, d.day - daysInMonth ym.1 ym.2⟩

/-- `toISOString().slice(0, 7)` of a date: its year and month index. -/
def monthValue (d : JSDate) : ℤ × ℕ := (d.year, d.month)

/-- The month selector entries: for each `i = 0..11` a fresh `new Date()`
with `setMonth(getMonth() - i)` applied, truncated to its month. -/
def monthList (today : JSDate) : List (ℤ × ℕ) :=
  (List.range 12).map fun i => monthValue (setMonth today ((today.month : ℤ) - (i : ℤ)))

/-- C5 fails on the code: rendered on 2024-03-31, `setMonth` rolls
"February 31st" forward, so entries 0 and 1 both read March 2024 — the
entries are neither one month apart nor pairwise distinct. -/
theorem monthList_end_of_month_overflow :
    (monthList ⟨2024, 2, 31⟩).length = 12
    ∧ (monthList ⟨2024, 2, 31⟩)[0]? = some (2024, 2)
    ∧ (monthList ⟨2024, 2, 31⟩)[1]? = some (2024, 2) := by
  refine ⟨?_, ?_, ?_⟩ <;> rfl

/-- The add-expense dialog state plus the two parent-visible effects:
the dialog-open flag (`open`/`onOpenChange`) and whether a re-fetch was
requested (`onExpenseAdded`). -/
structure FormState where
  amount : String
  category : String
  description : String
  date : String
  error : String
  loading : Bool
  dialogOpen : Bool
  refreshRequested : Bool
deriving DecidableEq

/-- One state effect of `handleSubmit`. -/
inductive FormEv where
  | setLoadingEv (b : Bool)
  | setErrorEv (msg : String)
  | setAmountEv (v : String)
  | setCategoryEv (v : String)
  | setDescriptionEv (v : String)
  | setDateEv (v : String)
  | expenseAddedEv
  | openChangeEv (b : Bool)
deriving DecidableEq

/-- Apply one `handleSubmit` effect to the form state. -/
def applyFormEv (s : FormState) : FormEv → FormState
  | .setLoadingEv b => { s with loading := b }
  | .setErrorEv msg => { s with error := msg }
  | .setAmountEv v => { s with amount := v }
  | .setCategoryEv v => { s with category := v }
  | .setDescriptionEv v => { s with description := v }
  | .setDateEv v => { s with date := v }
  | .expenseAddedEv => { s with refreshRequested := true }
  | .openChangeEv b => { s with dialogOpen := b }

/-- The sequence of effects `handleSubmit` performs around the awaited
insert: `resp = some msg` is a store failure with message `msg`, `none` a
success; `today` is `new Date().toISOString().split("T")[0]`. -/
def submitEvents (today : String) (resp : Option String) : List FormEv :=
  FormEv.setLoadingEv true :: FormEv.setErrorEv "" ::
    (match resp with
     | some msg => [FormEv.setErrorEv msg]
     | none => [FormEv.setAmountEv "", FormEv.setCategoryEv "", FormEv.setDescriptionEv "",
                FormEv.setDateEv today, FormEv.expenseAddedEv, FormEv.openChangeEv false])
    ++ [FormEv.setLoadingEv false]

/-- The form state after `handleSubmit` has processed the store response. -/
def handleSubmit (today : String) (resp : Option String) (s : FormState) : FormState :=
  (submitEvents today resp).foldl applyFormEv s

/-- C6: on a store failure with message `m` the form displays exactly `m`,
and the dialog-open flag and the four entered field values are unchanged. -/
theorem handleSubmit_failure (s : FormState) (today m : String) :
    (handleSubmit today (some m) s).error = m
    ∧ (handleSubmit today (some m) s).dialogOpen = s.dialogOpen
    ∧ (handleSubmit today (some m) s).amount = s.amount
    ∧ (handleSubmit today (some m) s).category = s.category
    ∧ (handleSubmit today (some m) s).description = s.description
    ∧ (handleSubmit today (some m) s).date = s.date :=
  ⟨rfl, rfl, rfl, rfl, rfl, rfl⟩

/-- C7: on a successful store response `handleSubmit` resets the four
fields to their defaults, signals the parent re-fetch, and closes the
dialog — in that order — and the resulting state shows the defaults, the
refresh request and the closed dialog. -/
theorem handleSubmit_success (s : FormState) (today : String) :
    submitEvents today none =
      [FormEv.setLoadingEv true, FormEv.setErrorEv "", FormEv.setAmountEv "",
       FormEv.setCategoryEv "", FormEv.setDescriptionEv "", FormEv.setDateEv today,
       FormEv.expenseAddedEv, FormEv.openChangeEv false, FormEv.setLoadingEv false]
    ∧ (handleSubmit today none s).amount = ""
    ∧ (handleSubmit today none s).category = ""
    ∧ (handleSubmit today none s).description = ""
    ∧ (handleSubmit today none s).date = today
    ∧ (handleSubmit today none s).refreshRequested = true
    ∧ (handleSubmit today none s).dialogOpen = false :=
  ⟨rfl, rfl, rfl, rfl, rfl, rfl, rfl⟩

/-- A JSON field value of the create payload. -/
inductive JsonVal where
  | num (q : ℚ)
  | str (s : String)
deriving DecidableEq

/-- A character list read as a base-10 numeral. -/
def digitsToNat (cs : List Char) : ℕ :=
  cs.foldl (fun n c => 10 * n + (c.toNat - 48)) 0

/-- Split a character list at its first dot. -/
def splitDot : List Char → List Char × Option (List Char)
  | [] => ([], none)
  | c :: rest =>
    if c = '.' then ([], some rest)
    else
      let p := splitDot rest
      (c :: p.1, p.2)

/-- Models the JavaScript `Number.parseFloat` builtin on the plain
non-negative decimal numerals the amount input produces. -/
def parseDecimal (s : String) : ℚ :=
  match splitDot s.data with
  | (ip, none) => (digitsToNat ip : ℚ)
  | (ip, some fp) => (digitsToNat ip : ℚ) + (digitsToNat fp : ℚ) / (10 ^ fp.length : ℚ)

/-- The create payload `handleSubmit` inserts into the `expenses` table. -/
def insertPayload (s : FormState) : List (String × JsonVal) :=
  [("amount", JsonVal.num (parseDecimal s.amount)),
   ("category", JsonVal.str s.category),
   ("description", JsonVal.str s.description),
   ("date", JsonVal.str s.date)]

/-- A row of the `expenses` table (the columns of the schema). -/
structure ExpenseRow where
  id : String
  user_id : String
  amount : ℚ
  category : String
  description : String
  date : String
deriving DecidableEq

/-- The schema's `set_user_id` before-insert trigger:
`NEW.user_id = auth.uid()`. -/
def set_user_id (uid : String) (newRow : ExpenseRow) : ExpenseRow :=
  { newRow with user_id := uid }

/-- C8: the create payload holds exactly the four fields amount (parsed
from the entered string), category, description and date — never an owner
identity, record id, or timestamps — and the store's before-insert trigger
stamps the owner identity server-side. -/
theorem insertPayload_correct (s : FormState) (uid : String) (row : ExpenseRow) :
    (insertPayload s).map Prod.fst = ["amount", "category", "description", "date"]
    ∧ objLookup (insertPayload s) "amount" = some (JsonVal.num (parseDecimal s.amount))
    ∧ objLookup (insertPayload s) "category" = some (JsonVal.str s.category)
    ∧ objLookup (insertPayload s) "description" = some (JsonVal.str s.description)
    ∧ objLookup (insertPayload s) "date" = some (JsonVal.str s.date)
    ∧ objLookup (insertPayload s) "user_id" = none
    ∧ objLookup (insertPayload s) "id" = none
    ∧ objLookup (insertPayload s) "created_at" = none
    ∧ objLookup (insertPayload s) "updated_at" = none
    ∧ (set_user_id uid row).user_id = uid :=
  ⟨rfl, rfl, rfl, rfl, rfl, rfl, rfl, rfl, rfl, rfl⟩

/-- How many of the later renders have a selected-month value different
from the render before them: the re-runs of the Dashboard effect whose
dependency array is `[selectedMonth]`. -/
def changesFrom (prev : String) : List String → ℕ
  | [] => 0
  | m :: rest => (if m = prev then 0 else 1) + changesFrom m rest

/-- How many times `getUser()` runs over a render sequence of
selected-month values: once on mount plus once per dependency change
(the effect calls `getUser()` on every run). -/
def getUserCalls (renders : List String) : ℕ :=
  match renders with
  | [] => 0
  | m :: rest => 1 + changesFrom m rest

/-- C9 counterexample: one month-selection change triggers a second
identity fetch, so the user is not fetched exactly once. -/
theorem getUserCalls_counterexample :
    getUserCalls ["2024-03", "2024-02"] = 2 ∧ (2 : ℕ) ≠ 1 :=
  ⟨rfl, by decide⟩

theorem changesFrom_eq_countP : ∀ (rest : List String) (prev : String),
    changesFrom prev rest = ((prev :: rest).zip rest).countP fun p => p.1 != p.2
  | [], _ => rfl
  | m :: rest', prev => by
    have ih := changesFrom_eq_countP rest' m
    by_cases h : m = prev
    · subst h
      simp [changesFrom, List.countP_cons, ih]
    · have h' : (prev != m) = true := by simp [Ne.symm h]
      simp only [changesFrom, List.zip_cons_cons, List.countP_cons, ih, if_neg h, h',
        if_pos]
      omega

theorem changesFrom_replicate (m : String) : ∀ n, changesFrom m (List.replicate n m) = 0
  | 0 => rfl
  | n + 1 => by simp [List.replicate_succ, changesFrom, changesFrom_replicate m n]

/-- C9 amended: the identity fetch runs on mount and again on every
month-selection change — one run per render whose selected month differs
from the previous render — so it runs exactly once only when the selected
month never changes. -/
theorem getUserCalls_amended (m : String) (rest : List String) (n : ℕ) :
    getUserCalls (m :: rest) = 1 + ((m :: rest).zip rest).countP (fun p => p.1 != p.2)
    ∧ getUserCalls (m :: List.replicate n m) = 1 := by
  constructor
  · show 1 + changesFrom m rest = _
    rw [changesFrom_eq_countP]
  · show 1 + changesFrom m (List.replicate n m) = 1
    rw [changesFrom_replicate]
